import Mathlib

/-!
Verification of the Bucketed Random Projection (BRP) index against its
natural-language specification.

The development shallowly embeds the Python sources:
  * `brp/libs/indexer.py` — the persistent store (`Index`) over the three
    entities Hyperplane, Bucket, Data, backed by SQLite;
  * `brp/libs/lsh.py` — the `_BRPModel` class: hashing, bucket key
    flattening, build (`generate_buckets`) and query
    (`get_approximate_nearest_neighbors`).

Modelling conventions:
  * vector components and the bucket width are embedded as rationals `ℚ`
    (the executable stand-in for Python's 64-bit floats; every claim below
    is about control flow, integer arithmetic, ordering or state, none
    about float rounding);
  * a SQLite table is a list of rows kept in rowid order; `INTEGER PRIMARY
    KEY` rowid allocation is max-of-existing-plus-one;
  * Python exceptions are an explicit error type and fallible code returns
    `Except`;
  * `np.linalg.norm(qv - v)` is embedded by the squared Euclidean distance
    `sq_dist`; the square root is strictly monotone, so the ordering used
    by the query's sort is unchanged;
  * Python's `sorted(..., key=lambda x: x[0])`, a stable ascending sort,
    is embedded as a stable insertion sort (`py_sorted`), structurally
    recursive so that it evaluates on concrete inputs;
  * `np.random.randn(n)` followed by normalisation is abstracted by a
    sampling function parameter `sample : Nat → Nat → List ℚ` (draw index,
    dimension); no claim depends on the sampled values.
-/

namespace BRP

/-- Embedded vector type (`brp.libs.types.Vector`, a tuple of floats). -/
abbrev Vec := List ℚ

/-- The Python exceptions that the embedded code paths can raise.
`dimensionMismatch` is the `ValueError` raised by `np.dot` on 1-D inputs
of different lengths (the spec's contract name is
`DimensionMismatchError`); `indexError` is `u[-1]` on an empty list in
`_flatten_hashset`; `noneAttributeError` is the `AttributeError` raised by
`fetch_bucket_data` when it receives `None` and evaluates `bucket.id`;
`unattachedEntity` is the `PermissionError` raised by `fetch_bucket_data`
on a bucket whose `id` is `None`. -/
inductive PyErr where
  | dimensionMismatch
  | indexError
  | noneAttributeError
  | unattachedEntity
deriving DecidableEq

/-- Row of the `hyperplane` table (`id INTEGER PK, vector TEXT`). -/
structure HyperplaneRow where
  id : Nat
  vector : Vec
deriving DecidableEq

/-- Row of the `bucket` table (`id INTEGER PK, hash INTEGER`). -/
structure BucketRow where
  id : Nat
  hash : Int
deriving DecidableEq

/-- Row of the `data` table
(`id INTEGER PK, raw TEXT, embedding TEXT, bucket_id INTEGER NULL`). -/
structure DataRow where
  id : Nat
  raw : String
  embedding : Vec
  bucket_id : Option Nat
deriving DecidableEq

/-- The `Hyperplane` dataclass: `id` is `None` until hydrated from a row. -/
structure Hyperplane where
  id : Option Nat := none
  vector : Vec
deriving DecidableEq

/-- The `Bucket` dataclass. -/
structure Bucket where
  id : Option Nat := none
  hash : Int
deriving DecidableEq

/-- The `Data` dataclass. -/
structure Data where
  id : Option Nat := none
  raw : String
  embedding : Vec
  bucket : Option Bucket := none
deriving DecidableEq

/-- State of the SQLite store managed by the `Index` class: one list of
rows per table, kept in rowid order. -/
structure Index where
  hyperplane : List HyperplaneRow
  bucket : List BucketRow
  data : List DataRow
deriving DecidableEq

/-- The model types accepted by `Index.clean` (`*model_type`). -/
inductive ModelType where
  | hyperplane
  | bucket
  | data
deriving DecidableEq

/-- SQLite rowid allocation for `INTEGER PRIMARY KEY` without
`AUTOINCREMENT`: one more than the largest rowid in the table (`1` for an
empty table). -/
def freshId (ids : List Nat) : Nat := ids.foldr max 0 + 1

/-- Embeds `Index.clean`: `DELETE FROM` each listed table. -/
def clean (idx : Index) (ts : List ModelType) : Index :=
  ts.foldl
    (fun i t =>
      match t with
      | ModelType.hyperplane => { i with hyperplane := [] }
      | ModelType.bucket => { i with bucket := [] }
      | ModelType.data => { i with data := [] })
    idx

/-- Embeds `Index.fetch_bucket(hash)`: first row of `SELECT * FROM bucket WHERE
hash = ?`, hydrated into a `Bucket` with its `id` set; `None` if no row
matches. -/
def fetch_bucket (idx : Index) (h : Int) : Option Bucket :=
  match idx.bucket.find? (fun r => decide (r.hash = h)) with
  | some r => some { id := some r.id, hash := r.hash }
  | none => none

/-- Embeds `Index.fetch_bucket_data(bucket)`: raises `PermissionError` when the
bucket's `id` is `None`; otherwise yields, in rowid order, every `data`
row with this `bucket_id`, each hydrated with `bucket` set to the given
bucket. -/
def fetch_bucket_data (idx : Index) (b : Bucket) : Except PyErr (List Data) :=
  match b.id with
  | none => Except.error PyErr.unattachedEntity
  | some bid =>
    Except.ok
      ((idx.data.filter (fun r => decide (r.bucket_id = some bid))).map
        (fun r => { id := some r.id, raw := r.raw, embedding := r.embedding, bucket := some b }))

/-- Embeds `Index.fetch_all_data()`: every `data` row in rowid order, hydrated.
The source hydrates the related bucket by calling
`self.fetch_bucket(row["bucket_id"])`, i.e. it looks the bucket up by the
`hash` column using the stored bucket id as the key; the embedding keeps
that behaviour. -/
def fetch_all_data (idx : Index) : List Data :=
  idx.data.map
    (fun r =>
      { id := some r.id, raw := r.raw, embedding := r.embedding,
        bucket :=
          match r.bucket_id with
          | none => none
          | some bid => fetch_bucket idx (Int.ofNat bid) })

/-- Embeds `Index.fetch_all_hyperplanes()`: every `hyperplane` row in rowid
order, hydrated. -/
def fetch_all_hyperplanes (idx : Index) : List Hyperplane :=
  idx.hyperplane.map (fun r => { id := some r.id, vector := r.vector })

/-- Embeds `Index._create_hyperplane`: inserts the row and returns the model.
The source does not write the new rowid back into `model.id`. -/
def _create_hyperplane (idx : Index) (m : Hyperplane) : Hyperplane × Index :=
  (m,
    { idx with
        hyperplane :=
          idx.hyperplane ++ [{ id := freshId (idx.hyperplane.map (fun r => r.id)), vector := m.vector }] })

/-- Embeds `Index._create_bucket`: get-or-create on `hash`.  If `fetch_bucket`
finds a row with this hash, that hydrated bucket is returned and nothing
is written; otherwise the row is inserted and the new rowid is assigned
to the model. -/
def _create_bucket (idx : Index) (m : Bucket) : Bucket × Index :=
  match fetch_bucket idx m.hash with
  | some fetched => (fetched, idx)
  | none =>
    let nid := freshId (idx.bucket.map (fun r => r.id))
    ({ m with id := some nid }, { idx with bucket := idx.bucket ++ [{ id := nid, hash := m.hash }] })

/-- Embeds `Index._create_data`: inserts the row (the `bucket_id` column is the
referenced bucket's id when `model.bucket` is set, `NULL` otherwise) and
assigns the new rowid to the model. -/
def _create_data (idx : Index) (m : Data) : Data × Index :=
  let nid := freshId (idx.data.map (fun r => r.id))
  ({ m with id := some nid },
    { idx with
        data :=
          idx.data ++
            [{ id := nid, raw := m.raw, embedding := m.embedding,
               bucket_id := m.bucket.bind (fun b => b.id) }] })

/-- Embeds `Index._update_data`: `UPDATE data SET … WHERE id = ?`.  The column
list comes from `_prepare_mapping`, which drops every `None`-valued
field; `raw` and `embedding` are always written, and `bucket_id` is
written only when `model.bucket` is set (then with value
`model.bucket.id`).  A `model.id` of `None` matches no row. -/
def _update_data (idx : Index) (m : Data) : Data × Index :=
  (m,
    { idx with
        data :=
          idx.data.map
            (fun r =>
              if some r.id = m.id then
                { r with
                    raw := m.raw, embedding := m.embedding,
                    bucket_id :=
                      match m.bucket with
                      | none => r.bucket_id
                      | some b => b.id }
              else r) })

/-- Embeds `Index._update_bucket`: `UPDATE bucket SET hash = ? WHERE id = ?`. -/
def _update_bucket (idx : Index) (m : Bucket) : Bucket × Index :=
  (m,
    { idx with
        bucket :=
          idx.bucket.map
            (fun r => if some r.id = m.id then { r with hash := m.hash } else r) })

/-- In-memory state of the `_BRPModel` class: the two knobs and the
loaded hyperplane list. -/
structure BRPModel where
  num_hyperplanes : Nat
  bucket_size : ℚ
  hyperplanes : List Hyperplane
deriving DecidableEq

/-- Embeds `np.dot` on two 1-D sequences of equal length. -/
def dot (v w : Vec) : ℚ := ((v.zip w).map (fun p => p.1 * p.2)).sum

/-- Embeds `_BRPModel._compute_hash(v, w, r) = int(np.floor(np.dot(v, w) / r))`.
`np.dot` raises `ValueError` when the 1-D operands have different
lengths. -/
def _compute_hash (v : Vec) (w : Vec) (r : ℚ) : Except PyErr Int :=
  if v.length = w.length then Except.ok (Int.floor (dot v w / r))
  else Except.error PyErr.dimensionMismatch

/-- Loop body of `_BRPModel._compute_hash_set`: one hash per hyperplane,
in hyperplane list order; the first `ValueError` aborts the loop. -/
def compute_hash_list (hps : List Hyperplane) (r : ℚ) (v : Vec) : Except PyErr (List Int) :=
  match hps with
  | [] => Except.ok []
  | hp :: rest => do
    let h ← _compute_hash v hp.vector r
    let hs ← compute_hash_list rest r v
    Except.ok (h :: hs)

/-- Embeds `_BRPModel._compute_hash_set(v)`: hashes `v` against
`self.hyperplanes` with width `self.bucket_size`. -/
def _compute_hash_set (m : BRPModel) (v : Vec) : Except PyErr (List Int) :=
  compute_hash_list m.hyperplanes m.bucket_size v

/-- Embeds `_BRPModel._flatten_hashset(u)`:

    index = 0
    for i, n in enumerate(range(len(u) - 1, 0, -1)):
        index += (u[i] * 2) ** n
    return index + u[-1]

`range(len(u) - 1, 0, -1)` is `(List.range' 1 (u.length - 1)).reverse`
and `enumerate` is `List.enum`; `u[-1]` raises `IndexError` on an empty
list. -/
def _flatten_hashset (u : List Int) : Except PyErr Int :=
  match u.getLast? with
  | none => Except.error PyErr.indexError
  | some last =>
    Except.ok
      ((((List.range' 1 (u.length - 1)).reverse.enum).map
          (fun p => (u.getD p.1 0 * 2) ^ p.2)).sum + last)

/-- Squared Euclidean distance; embeds `np.linalg.norm(qv - v)` up to the
strictly monotone square root, so every ordering comparison made on it is
unchanged. -/
def sq_dist (q v : Vec) : ℚ := ((q.zip v).map (fun p => (p.1 - p.2) ^ 2)).sum

/-- Comparison used by the query's sort: `key=lambda x: x[0]`. -/
def distLE (a b : ℚ × String) : Bool := decide (a.1 ≤ b.1)

/-- Insert into a sorted list, after any element with an equal or smaller
key (the placement a stable sort gives a later-arriving element). -/
def insert_stable (le : α → α → Bool) (a : α) : List α → List α
  | [] => [a]
  | b :: l => if le b a then b :: insert_stable le a l else a :: b :: l

/-- Python's `sorted`, a stable ascending sort, embedded as stable
insertion sort: the input is consumed left to right, each element going
after all previously placed elements with an equal key. -/
def py_sorted (le : α → α → Bool) (l : List α) : List α :=
  l.foldl (fun acc a => insert_stable le a acc) []

/-- Python's slice `l[:k]` for an arbitrary integer `k`: the first `k`
elements when `k ≥ 0` (all of them when `k` exceeds the length), and all
but the last `|k|` when `k < 0`. -/
def py_slice_upto (k : Int) (l : List α) : List α :=
  if 0 ≤ k then l.take k.toNat else l.take (l.length - (-k).toNat)

/-- Candidate accumulation loop of
`_BRPModel.get_approximate_nearest_neighbors`: hash the query, flatten,
fetch the bucket (passing the result — possibly `None` — straight into
`fetch_bucket_data`, which then evaluates `bucket.id`), and pair each
candidate's distance with its `raw`. -/
def candidate_distances (m : BRPModel) (idx : Index) (q : Vec) :
    Except PyErr (List (ℚ × String)) := do
  let hset ← _compute_hash_set m q
  let key ← _flatten_hashset hset
  match fetch_bucket idx key with
  | none => Except.error PyErr.noneAttributeError
  | some b => do
    let ds ← fetch_bucket_data idx b
    Except.ok (ds.map (fun d => (sq_dist q d.embedding, d.raw)))

/-- Embeds `_BRPModel.get_approximate_nearest_neighbors(query, k)`:
`sorted(bucket_distances, key=lambda x: x[0])[:k]`. -/
def get_approximate_nearest_neighbors (m : BRPModel) (idx : Index) (q : Vec) (k : Int) :
    Except PyErr (List (ℚ × String)) := do
  let cs ← candidate_distances m idx q
  Except.ok (py_slice_upto k (py_sorted distLE cs))

/-- Embeds `_BRPModel._gen_random_hyperplanes(n)`: `self.num_hyperplanes` draws
of a normalised `np.random.randn(n)` sample, abstracted by the `sample`
parameter (draw index, dimension). -/
def _gen_random_hyperplanes (sample : Nat → Nat → Vec) (num : Nat) (n : Nat) : List Vec :=
  (List.range num).map (fun i => sample i n)

/-- Hyperplane generation step of `generate_buckets`: each sampled vector
is passed to `Index.create` and the returned model (whose `id` the store
never sets) is appended to `self.hyperplanes`. -/
def append_hyperplanes (ws : List Vec) (hps : List Hyperplane) (idx : Index) :
    List Hyperplane × Index :=
  ws.foldl
    (fun acc w =>
      let created := _create_hyperplane acc.2 { id := none, vector := w }
      (acc.1 ++ [created.1], created.2))
    (hps, idx)

/-- Per-datum body of the `generate_buckets` loop: generate and persist
the hyperplanes if none are loaded yet, hash the datum's embedding,
flatten, get-or-create the bucket, and update the datum with it.  (The
source also rewrites `datasets/hyperplanes.json` each iteration; that
file write has no effect on the store and is not modelled.) -/
def generate_buckets_step (sample : Nat → Nat → Vec) (num : Nat) (r : ℚ)
    (acc : List Hyperplane × Index) (d : Data) : Except PyErr (List Hyperplane × Index) :=
  let st :=
    if acc.1.isEmpty then
      append_hyperplanes (_gen_random_hyperplanes sample num d.embedding.length) acc.1 acc.2
    else acc
  do
    let hset ← compute_hash_list st.1 r d.embedding
    let key ← _flatten_hashset hset
    let created := _create_bucket st.2 { id := none, hash := key }
    let updated := _update_data created.2 { d with bucket := some created.1 }
    Except.ok (st.1, updated.2)

/-- First statement of `generate_buckets`:
`self._index.clean(Bucket, Hyperplane)`. -/
def clean_step (idx : Index) : Index := clean idx [ModelType.bucket, ModelType.hyperplane]

/-- Embeds `_BRPModel.generate_buckets()`: truncate the bucket and hyperplane
tables, then iterate the data snapshot (the source's cursor materialises
the rows with `fetchall` before the first loop iteration) through
`generate_buckets_step`. -/
def generate_buckets (sample : Nat → Nat → Vec) (m : BRPModel) (idx : Index) :
    Except PyErr (BRPModel × Index) := do
  let idx1 := clean_step idx
  let folded ← (fetch_all_data idx1).foldlM
    (generate_buckets_step sample m.num_hyperplanes m.bucket_size) (m.hyperplanes, idx1)
  Except.ok ({ m with hyperplanes := folded.1 }, folded.2)

/-- Embeds `_BRPModel.load_hyperplanes()`: hydrate `self.hyperplanes` from the
store and set `num_hyperplanes` to their number. -/
def load_hyperplanes (m : BRPModel) (idx : Index) : BRPModel :=
  { m with
      hyperplanes := fetch_all_hyperplanes idx,
      num_hyperplanes := (fetch_all_hyperplanes idx).length }

deriving instance DecidableEq for Except

/-- Store with all three tables empty (a freshly initialised index). -/
def idxEmpty : Index := { hyperplane := [], bucket := [], data := [] }

/-- Store holding one 1-dimensional hyperplane and nothing else. -/
def idxOneHpNoBucket : Index :=
  { hyperplane := [{ id := 1, vector := [1] }], bucket := [], data := [] }

/-- Loaded model with a single 1-dimensional hyperplane `(1)` and bucket
width `1`. -/
def mOneHp : BRPModel :=
  { num_hyperplanes := 1, bucket_size := 1, hyperplanes := [{ id := some 1, vector := [1] }] }

/-- Store where bucket `1` (hash `0`) holds the two data items `A` and
`B`, both with embedding `(0)`. -/
def idxTwoInBucket : Index :=
  { hyperplane := [{ id := 1, vector := [1] }],
    bucket := [{ id := 1, hash := 0 }],
    data := [{ id := 1, raw := "A", embedding := [0], bucket_id := some 1 },
             { id := 2, raw := "B", embedding := [0], bucket_id := some 1 }] }

/-- Store state left by a previous build: one hyperplane, one bucket, and
a data row whose `bucket_id` points at that bucket. -/
def idxBuilt : Index :=
  { hyperplane := [{ id := 1, vector := [1] }],
    bucket := [{ id := 1, hash := 0 }],
    data := [{ id := 1, raw := "A", embedding := [0], bucket_id := some 1 }] }

/-- Store holding a single bucket with hash `5`. -/
def idxOneBucket5 : Index :=
  { hyperplane := [], bucket := [{ id := 1, hash := 5 }], data := [] }

/-- Fresh model (no hyperplanes loaded) with `num_hyperplanes = 1` and
bucket width `1`, as `load_model(force_init=True)` constructs before
calling `generate_buckets`. -/
def mFresh : BRPModel := { num_hyperplanes := 1, bucket_size := 1, hyperplanes := [] }

/-- Store with one unassigned data item `A` at embedding `(0)` and no
hyperplanes or buckets. -/
def idxOneData : Index :=
  { hyperplane := [], bucket := [],
    data := [{ id := 1, raw := "A", embedding := [0], bucket_id := none }] }

/-- Loaded model with one 2-dimensional hyperplane `(1, 0)`. -/
def mDim2 : BRPModel :=
  { num_hyperplanes := 1, bucket_size := 1, hyperplanes := [{ id := some 1, vector := [1, 0] }] }

/-- Deterministic stand-in for the hyperplane sampler: every draw is the
1-dimensional unit vector `(1)`. -/
def sampleOne : Nat → Nat → Vec := fun _ _ => [1]

/-! ## Helper lemmas -/

/-- Summing `f` over the enumeration (from `k`) of the descending range
`[n, …, 1]` pairs index `i` with value `n - i`. -/
theorem enumFrom_reverse_range_sum (f : Nat → Nat → Int) :
    ∀ (n k : Nat),
      (((List.range' 1 n).reverse.enumFrom k).map (fun p => f p.1 p.2)).sum =
        ((List.range n).map (fun i => f (k + i) (n - i))).sum := by
  intro n
  induction n with
  | zero => intro k; simp
  | succ n ih =>
    intro k
    rw [List.range'_1_concat, List.reverse_append, List.range_succ_eq_map]
    simp only [List.reverse_cons, List.reverse_nil, List.nil_append, List.cons_append,
      List.enumFrom_cons, List.map_cons, List.sum_cons, List.map_map]
    rw [ih (k + 1)]
    congr 1
    · congr 1
      omega
    · apply congrArg List.sum
      apply List.map_congr_left
      intro a _
      simp only [Function.comp_apply, Nat.succ_sub_succ]
      congr 1
      omega

/-! ## C3: the flatten formula -/

/-- C3. For every hashset `u = [h_1, …, h_H]` with `H ≥ 1`,
`_flatten_hashset u` returns `h_H` plus the sum over `i ∈ [1..H-1]` of
`(h_i * 2) ^ (H - i)` (0-based: the sum over `j < H-1` of
`(u[j] * 2) ^ (H-1-j)`); in particular for `H = 1` the key equals
`h_1`. -/
theorem flatten_hashset_formula (u : List Int) (h : u ≠ []) :
    _flatten_hashset u =
      Except.ok
        (u.getLast h +
          ((List.range (u.length - 1)).map
              (fun j => (u.getD j 0 * 2) ^ (u.length - 1 - j))).sum) ∧
    (u.length = 1 → _flatten_hashset u = Except.ok (u.getD 0 0)) := by
  constructor
  · unfold _flatten_hashset
    rw [List.getLast?_eq_getLast u h]
    have he : (List.range' 1 (u.length - 1)).reverse.enum =
        (List.range' 1 (u.length - 1)).reverse.enumFrom 0 := rfl
    rw [he, enumFrom_reverse_range_sum (fun i n' => (u.getD i 0 * 2) ^ n') (u.length - 1) 0]
    simp [Int.add_comm]
  · intro h1
    obtain ⟨a, rfl⟩ := List.length_eq_one.mp h1
    simp [_flatten_hashset]

/-- C3 witness: at `u = [3, -2, 5]` (`H = 3`) the hypothesis holds and
the formula gives `5 + (3·2)² + (-2·2)¹ = 37`. -/
theorem flatten_hashset_formula_witness :
    ([3, -2, 5] : List Int) ≠ [] ∧ _flatten_hashset [3, -2, 5] = Except.ok 37 :=
  ⟨by decide,
    ((flatten_hashset_formula [3, -2, 5] (by decide)).1).trans (by decide)⟩

/-- A `fetch_bucket` miss means no bucket row carries the hash. -/
theorem fetch_bucket_none_iff (idx : Index) (h : Int) :
    fetch_bucket idx h = none ↔ ∀ r ∈ idx.bucket, r.hash ≠ h := by
  unfold fetch_bucket
  cases hf : idx.bucket.find? (fun r => decide (r.hash = h)) with
  | none =>
    simp only [hf]
    constructor
    · intro _ r hr
      have := List.find?_eq_none.mp hf r hr
      simpa using this
    · intro _
      trivial
  | some r =>
    simp only [hf]
    constructor
    · intro hcon
      exact absurd hcon (by simp)
    · intro hall
      have h1 := List.find?_some hf
      have h2 := List.mem_of_find?_eq_some hf
      exact absurd (of_decide_eq_true h1) (hall r h2)

/-! ## C4: bucket creation is get-or-create -/

/-- C4. Creating a bucket whose hash is already present returns the
existing bucket (same id) and leaves the store untouched, so the bucket
count does not grow; and bucket creation preserves hash-uniqueness
across the bucket table. -/
theorem create_bucket_get_or_create (idx : Index) (bm : Bucket) (b : Bucket)
    (hb : fetch_bucket idx bm.hash = some b) :
    _create_bucket idx bm = (b, idx) ∧
    (_create_bucket idx bm).2.bucket.length = idx.bucket.length ∧
    ∀ idx2 bm2, idx2.bucket.Pairwise (fun r1 r2 => r1.hash ≠ r2.hash) →
      ((_create_bucket idx2 bm2).2).bucket.Pairwise (fun r1 r2 => r1.hash ≠ r2.hash) := by
  have h1 : _create_bucket idx bm = (b, idx) := by
    simp [_create_bucket, hb]
  refine ⟨h1, by rw [h1], ?_⟩
  intro idx2 bm2 hp
  cases h2 : fetch_bucket idx2 bm2.hash with
  | some c =>
    simpa [_create_bucket, h2] using hp
  | none =>
    simp only [_create_bucket, h2]
    apply List.pairwise_append.mpr
    refine ⟨hp, List.pairwise_singleton _ _, ?_⟩
    intro r1 hr1 r2 hr2
    have hne := (fetch_bucket_none_iff idx2 bm2.hash).mp h2 r1 hr1
    have : r2 = { id := freshId (idx2.bucket.map (fun r => r.id)), hash := bm2.hash } :=
      List.mem_singleton.mp hr2
    rw [this]
    exact hne

/-- C4 witness: with bucket `⟨id 1, hash 5⟩` already stored, creating
`Bucket(hash=5)` returns that bucket and the same store. -/
theorem create_bucket_get_or_create_witness :
    fetch_bucket idxOneBucket5 ({ id := none, hash := 5 } : Bucket).hash =
      some { id := some 1, hash := 5 } ∧
    _create_bucket idxOneBucket5 { id := none, hash := 5 } =
      ({ id := some 1, hash := 5 }, idxOneBucket5) :=
  ⟨by decide,
    (create_bucket_get_or_create idxOneBucket5 { id := none, hash := 5 }
      { id := some 1, hash := 5 } (by decide)).1⟩

/-! ## C7: id assignment on create -/

/-- C7 (amended). `create` writes the new rowid back into the returned
entity for Data, and for Bucket it returns the freshly allocated id on a
miss and the existing id on a hash hit; but `_create_hyperplane` returns
its argument unchanged, so a created Hyperplane keeps `id = None`. -/
theorem create_assigns_id_by_kind (idx : Index) (hm : Hyperplane) (bm : Bucket) (dm : Data) :
    (_create_data idx dm).1.id = some (freshId (idx.data.map (fun r => r.id))) ∧
    (fetch_bucket idx bm.hash = none →
      (_create_bucket idx bm).1.id = some (freshId (idx.bucket.map (fun r => r.id)))) ∧
    (∀ b, fetch_bucket idx bm.hash = some b → (_create_bucket idx bm).1.id = b.id) ∧
    (_create_hyperplane idx hm).1 = hm := by
  refine ⟨rfl, ?_, ?_, rfl⟩
  · intro hn
    simp [_create_bucket, hn]
  · intro b hb
    simp [_create_bucket, hb]

/-- C7 witness: the amended statement at the empty store with concrete
entities of all three kinds. -/
theorem create_assigns_id_by_kind_witness :
    (_create_data idxEmpty { id := none, raw := "A", embedding := [0], bucket := none }).1.id =
      some (freshId (idxEmpty.data.map (fun r => r.id))) ∧
    (fetch_bucket idxEmpty ({ id := none, hash := 7 } : Bucket).hash = none →
      (_create_bucket idxEmpty { id := none, hash := 7 }).1.id =
        some (freshId (idxEmpty.bucket.map (fun r => r.id)))) ∧
    (∀ b, fetch_bucket idxEmpty ({ id := none, hash := 7 } : Bucket).hash = some b →
      (_create_bucket idxEmpty { id := none, hash := 7 }).1.id = b.id) ∧
    (_create_hyperplane idxEmpty { id := none, vector := [1] }).1 =
      { id := none, vector := [1] } :=
  create_assigns_id_by_kind idxEmpty { id := none, vector := [1] } { id := none, hash := 7 }
    { id := none, raw := "A", embedding := [0], bucket := none }

/-- C7 counterexample: creating a Hyperplane inserts a row but the
returned entity's `id` is still `None`, refuting "create assigns the
newly allocated id on the returned entity" for every entity kind. -/
theorem create_hyperplane_id_not_assigned :
    (_create_hyperplane idxEmpty { id := none, vector := [1] }).1.id = none ∧
    (_create_hyperplane idxEmpty { id := none, vector := [1] }).2.hyperplane ≠ [] := by
  exact ⟨rfl, by with_unfolding_all decide⟩

/-! ## C10: update never writes None-valued columns -/

/-- C10. Updating a Data whose in-memory `bucket` is `None` leaves the
stored `bucket_id` column of every row unchanged: the prepared mapping
drops `None`-valued fields, so a bucket assignment cannot be cleared
through `update`. -/
theorem update_data_preserves_bucket_column (idx : Index) (dm : Data)
    (h : dm.bucket = none) :
    ((_update_data idx dm).2).data.map (fun r => r.bucket_id) =
      idx.data.map (fun r => r.bucket_id) := by
  unfold _update_data
  simp only [List.map_map]
  apply List.map_congr_left
  intro r _
  by_cases hid : some r.id = dm.id
  · simp [hid, h]
  · simp [hid]

/-- C10 witness: updating the assigned datum of `idxBuilt` with an
in-memory `bucket = None` keeps its stored `bucket_id`. -/
theorem update_data_preserves_bucket_column_witness :
    (({ id := some 1, raw := "A2", embedding := [0], bucket := none } : Data).bucket = none) ∧
    ((_update_data idxBuilt { id := some 1, raw := "A2", embedding := [0], bucket := none }).2).data.map
        (fun r => r.bucket_id) =
      idxBuilt.data.map (fun r => r.bucket_id) :=
  ⟨rfl, update_data_preserves_bucket_column idxBuilt
    { id := some 1, raw := "A2", embedding := [0], bucket := none } rfl⟩

/-! ## C2: what the first build step does and does not clear -/

/-- C2 (amended). The first step of a (re)build,
`clean(Bucket, Hyperplane)`, truncates the bucket and hyperplane tables
and leaves the data table — including every stored `bucket_id` — exactly
as it was; data rows hydrated immediately after this step nevertheless
carry no bucket, because bucket hydration finds nothing in the emptied
bucket table. -/
theorem clean_step_frame (idx : Index) :
    (clean_step idx).hyperplane = [] ∧ (clean_step idx).bucket = [] ∧
    (clean_step idx).data = idx.data ∧
    ∀ d ∈ fetch_all_data (clean_step idx), d.bucket = none := by
  refine ⟨rfl, rfl, rfl, ?_⟩
  intro d hd
  unfold fetch_all_data at hd
  obtain ⟨r, _, rfl⟩ := List.mem_map.mp hd
  cases hb : r.bucket_id with
  | none => simp [hb]
  | some bid => simp [hb, fetch_bucket, clean_step, clean]

/-- C2 witness: the amended statement at the already-built store. -/
theorem clean_step_frame_witness :
    (clean_step idxBuilt).hyperplane = [] ∧ (clean_step idxBuilt).bucket = [] ∧
    (clean_step idxBuilt).data = idxBuilt.data ∧
    ∀ d ∈ fetch_all_data (clean_step idxBuilt), d.bucket = none :=
  clean_step_frame idxBuilt

/-- C2 counterexample: after the first build step on `idxBuilt`, the
stored data row still has `bucket_id = some 1`, refuting "immediately
after this step no Data has a bucket_ref set" at the row level. -/
theorem clean_step_does_not_clear_bucket_refs :
    ¬ ∀ r ∈ (clean_step idxBuilt).data, r.bucket_id = none := by
  with_unfolding_all decide

/-! ## C1: query for a missing bucket -/

/-- C1. When no bucket has the query's flattened hash, the code does not
return `[]`: `fetch_bucket` yields `None`, which
`get_approximate_nearest_neighbors` passes straight into
`fetch_bucket_data`, and evaluating `bucket.id` on `None` raises
`AttributeError`.  Evaluated here at the failing input: one hyperplane
`(1)`, width `1`, empty bucket table, query `(0)` (flattened key `0`). -/
theorem knn_missing_bucket_raises :
    get_approximate_nearest_neighbors mOneHp idxOneHpNoBucket [0] 1 =
      Except.error PyErr.noneAttributeError := by
  with_unfolding_all rfl

/-- Reduction of the `Except` monad: an error short-circuits `bind`. -/
theorem except_error_bind {ε α β : Type} (e : ε) (f : α → Except ε β) :
    (Except.error e : Except ε α) >>= f = Except.error e := rfl

/-- Reduction of the `Except` monad: `ok` feeds its value to `bind`. -/
theorem except_ok_bind {ε α β : Type} (a : α) (f : α → Except ε β) :
    (Except.ok a : Except ε α) >>= f = f a := rfl

/-! ## C9: dimension mismatch on query -/

/-- C9. When the loaded hyperplanes all have dimension `D` (and there is
at least one, so `D` is the index dimension) and the query's dimension
differs from `D`, the query fails with the dimension-mismatch error (the
`ValueError` from `np.dot`, the spec's `DimensionMismatchError`) rather
than returning a result. -/
theorem knn_dimension_mismatch (m : BRPModel) (idx : Index) (q : Vec) (k : Int) (D : Nat)
    (hne : m.hyperplanes ≠ [])
    (hD : ∀ hp ∈ m.hyperplanes, hp.vector.length = D)
    (hq : q.length ≠ D) :
    get_approximate_nearest_neighbors m idx q k = Except.error PyErr.dimensionMismatch := by
  obtain ⟨numH, r, hps⟩ := m
  cases hps with
  | nil => exact absurd rfl hne
  | cons hp rest =>
    have hlen : q.length ≠ hp.vector.length := by
      rw [hD hp (List.mem_cons_self hp rest)]
      exact hq
    simp [get_approximate_nearest_neighbors, candidate_distances, _compute_hash_set,
      compute_hash_list, _compute_hash, hlen, except_error_bind]

/-- C9 witness: a 2-dimensional index queried with a 3-dimensional
vector fails with the dimension-mismatch error. -/
theorem knn_dimension_mismatch_witness :
    mDim2.hyperplanes ≠ [] ∧
    (∀ hp ∈ mDim2.hyperplanes, hp.vector.length = 2) ∧
    ([(1 : ℚ), 2, 3] : Vec).length ≠ 2 ∧
    get_approximate_nearest_neighbors mDim2 idxEmpty [1, 2, 3] 1 =
      Except.error PyErr.dimensionMismatch :=
  ⟨by with_unfolding_all decide, by with_unfolding_all decide, by decide,
    knn_dimension_mismatch mDim2 idxEmpty [1, 2, 3] 1 2
      (by with_unfolding_all decide) (by with_unfolding_all decide) (by decide)⟩

/-! ## Properties of the stable sort -/

/-- Membership in an insertion. -/
theorem mem_insert_stable {le : α → α → Bool} {a x : α} :
    ∀ {l : List α}, x ∈ insert_stable le a l ↔ x = a ∨ x ∈ l := by
  intro l
  induction l with
  | nil => simp [insert_stable]
  | cons b t ih =>
    unfold insert_stable
    by_cases hba : le b a
    · rw [if_pos hba]
      simp only [List.mem_cons, ih]
      tauto
    · rw [if_neg hba]
      simp only [List.mem_cons]

/-- Inserting grows the length by one. -/
theorem length_insert_stable (le : α → α → Bool) (a : α) :
    ∀ l : List α, (insert_stable le a l).length = l.length + 1 := by
  intro l
  induction l with
  | nil => rfl
  | cons b t ih =>
    unfold insert_stable
    by_cases hba : le b a
    · rw [if_pos hba]
      simp [ih]
    · rw [if_neg hba]
      simp

/-- The element is inserted after a prefix that compares `le` to it, and
— unless it lands at the end — right before an element that does not. -/
theorem insert_stable_split (le : α → α → Bool) (a : α) :
    ∀ l : List α, ∃ l₁ l₂, insert_stable le a l = l₁ ++ a :: l₂ ∧ l = l₁ ++ l₂ ∧
      (∀ b ∈ l₁, le b a = true) ∧
      (l₂ = [] ∨ ∃ c cs, l₂ = c :: cs ∧ le c a = false) := by
  intro l
  induction l with
  | nil => exact ⟨[], [], rfl, rfl, by simp, Or.inl rfl⟩
  | cons b t ih =>
    by_cases hba : le b a
    · obtain ⟨l₁, l₂, h1, h2, h3, h4⟩ := ih
      refine ⟨b :: l₁, l₂, ?_, by rw [List.cons_append, ← h2], ?_, h4⟩
      · unfold insert_stable
        rw [if_pos hba, h1]
        rfl
      · intro x hx
        rcases List.mem_cons.mp hx with rfl | hxl
        · exact hba
        · exact h3 x hxl
    · refine ⟨[], b :: t, ?_, rfl, by simp, Or.inr ⟨b, t, rfl, by simpa using hba⟩⟩
      unfold insert_stable
      rw [if_neg hba]
      rfl

/-- Inserting into a list sorted by candidate distance keeps it
sorted. -/
theorem pairwise_insert_stable {a : ℚ × String} :
    ∀ {l : List (ℚ × String)}, l.Pairwise (fun x y => x.1 ≤ y.1) →
      (insert_stable distLE a l).Pairwise (fun x y => x.1 ≤ y.1) := by
  intro l
  induction l with
  | nil => intro _; simp [insert_stable]
  | cons b t ih =>
    intro h
    rw [List.pairwise_cons] at h
    unfold insert_stable
    by_cases hba : distLE b a
    · rw [if_pos hba]
      apply List.pairwise_cons.mpr
      refine ⟨?_, ih h.2⟩
      intro x hx
      rcases mem_insert_stable.mp hx with rfl | hxt
      · exact of_decide_eq_true hba
      · exact h.1 x hxt
    · rw [if_neg hba]
      have hab : a.1 ≤ b.1 := le_of_not_le (by simpa [distLE] using hba)
      apply List.pairwise_cons.mpr
      refine ⟨?_, List.pairwise_cons.mpr ⟨h.1, h.2⟩⟩
      intro x hx
      rcases List.mem_cons.mp hx with rfl | hxt
      · exact hab
      · exact le_trans hab (h.1 x hxt)

/-- The query's sort produces a list sorted by ascending distance. -/
theorem pairwise_py_sorted (l : List (ℚ × String)) :
    (py_sorted distLE l).Pairwise (fun x y => x.1 ≤ y.1) := by
  suffices h : ∀ (l acc : List (ℚ × String)), acc.Pairwise (fun x y => x.1 ≤ y.1) →
      (List.foldl (fun acc a => insert_stable distLE a acc) acc l).Pairwise
        (fun x y => x.1 ≤ y.1) by
    exact h l [] List.Pairwise.nil
  intro l
  induction l with
  | nil => intro acc h; simpa using h
  | cons a t ih =>
    intro acc h
    exact ih (insert_stable distLE a acc) (pairwise_insert_stable h)

/-- Inserting into a sorted list appends to its equal-key class when the
inserted element has that key, and leaves every key class unchanged
otherwise: the stability of the insertion. -/
theorem filter_insert_stable (v : ℚ) (a : ℚ × String) (l : List (ℚ × String))
    (h : l.Pairwise (fun x y => x.1 ≤ y.1)) :
    (insert_stable distLE a l).filter (fun x => decide (x.1 = v)) =
      l.filter (fun x => decide (x.1 = v)) ++ if a.1 = v then [a] else [] := by
  obtain ⟨l₁, l₂, h1, h2, h3, h4⟩ := insert_stable_split distLE a l
  rw [h1, h2, List.filter_append, List.filter_append, List.filter_cons]
  by_cases hpa : a.1 = v
  · have hl2 : l₂.filter (fun x => decide (x.1 = v)) = [] := by
      rcases h4 with rfl | ⟨c, cs, rfl, hc⟩
      · rfl
      · apply List.filter_eq_nil_iff.mpr
        intro x hx
        have hpw : (c :: cs).Pairwise (fun x y => x.1 ≤ y.1) := by
          rw [h2] at h
          exact List.Pairwise.sublist (List.sublist_append_right l₁ (c :: cs)) h
        have hcx : c.1 ≤ x.1 := by
          rcases List.mem_cons.mp hx with rfl | hxcs
          · exact le_refl _
          · exact (List.pairwise_cons.mp hpw).1 x hxcs
        have hac : a.1 < c.1 := lt_of_not_le (by simpa [distLE] using hc)
        have : v < x.1 := lt_of_lt_of_le (hpa ▸ hac) hcx
        simp [ne_of_gt this]
    simp [hpa, hl2]
  · simp [hpa]

/-- Folding the stable insertion over the candidates preserves every
equal-key class, in order. -/
theorem filter_foldl_insert_stable (v : ℚ) :
    ∀ (l acc : List (ℚ × String)), acc.Pairwise (fun x y => x.1 ≤ y.1) →
      (List.foldl (fun acc a => insert_stable distLE a acc) acc l).filter
          (fun x => decide (x.1 = v)) =
        acc.filter (fun x => decide (x.1 = v)) ++ l.filter (fun x => decide (x.1 = v)) := by
  intro l
  induction l with
  | nil => intro acc _; simp
  | cons a t ih =>
    intro acc h
    rw [List.foldl_cons, ih (insert_stable distLE a acc) (pairwise_insert_stable h),
      filter_insert_stable v a acc h, List.filter_cons]
    by_cases hpa : a.1 = v
    · simp [hpa]
    · simp [hpa]

/-- The query's sort is stable: it preserves each equal-distance class of
the candidate list in arrival order. -/
theorem filter_py_sorted (v : ℚ) (l : List (ℚ × String)) :
    (py_sorted distLE l).filter (fun x => decide (x.1 = v)) =
      l.filter (fun x => decide (x.1 = v)) := by
  unfold py_sorted
  rw [filter_foldl_insert_stable v l [] List.Pairwise.nil]
  rfl

/-- The query's sort preserves length. -/
theorem length_py_sorted (le : α → α → Bool) (l : List α) :
    (py_sorted le l).length = l.length := by
  suffices h : ∀ (l acc : List α),
      (List.foldl (fun acc a => insert_stable le a acc) acc l).length =
        acc.length + l.length by
    simpa using h l []
  intro l
  induction l with
  | nil => intro acc; simp
  | cons a t ih =>
    intro acc
    rw [List.foldl_cons, ih (insert_stable le a acc), length_insert_stable]
    simp only [List.length_cons]
    omega

/-- Taking more than the length leaves the list unchanged. -/
theorem take_eq_take_min (l : List α) (n : Nat) : l.take n = l.take (min n l.length) := by
  rcases le_total n l.length with h | h
  · rw [min_eq_left h]
  · rw [min_eq_right h, List.take_of_length_le h, List.take_length]

/-! ## C8: non-positive k -/

/-- C8 (amended). With the candidate list available, `k = 0` yields `[]`;
but a negative `k` is applied as the Python slice `[:k]`, returning the
sorted candidates minus their last `|k|` elements — empty only when the
bucket holds at most `|k|` candidates.  The list `srt` is pinned to the
stable sort of `cs` (sorted, and preserving every equal-distance class of
the fetch-order candidates), and the returned value is exactly `srt` with
its last `|k|` elements dropped. -/
theorem knn_nonpositive_k (m : BRPModel) (idx : Index) (q : Vec) (cs : List (ℚ × String))
    (hc : candidate_distances m idx q = Except.ok cs) (k : Int) :
    (k = 0 → get_approximate_nearest_neighbors m idx q k = Except.ok []) ∧
    (k < 0 → ∃ srt : List (ℚ × String),
      srt.Pairwise (fun x y => x.1 ≤ y.1) ∧
      (∀ v : ℚ, srt.filter (fun x => decide (x.1 = v)) =
        cs.filter (fun x => decide (x.1 = v))) ∧
      get_approximate_nearest_neighbors m idx q k =
        Except.ok (srt.take (cs.length - (-k).toNat))) := by
  have hknn : get_approximate_nearest_neighbors m idx q k =
      Except.ok (py_slice_upto k (py_sorted distLE cs)) := by
    unfold get_approximate_nearest_neighbors
    rw [hc, except_ok_bind]
  constructor
  · rintro rfl
    rw [hknn]
    simp [py_slice_upto]
  · intro hk
    refine ⟨py_sorted distLE cs, pairwise_py_sorted cs, fun v => filter_py_sorted v cs, ?_⟩
    rw [hknn, py_slice_upto, if_neg (not_le.mpr hk), length_py_sorted]

/-- C8 witness: the amended statement at a bucket holding `A` and `B`
with `k = -1`: the result is the sorted candidates minus their last
element. -/
theorem knn_nonpositive_k_witness :
    candidate_distances mOneHp idxTwoInBucket [0] = Except.ok [(0, "A"), (0, "B")] ∧
    (((-1 : Int) = 0 →
        get_approximate_nearest_neighbors mOneHp idxTwoInBucket [0] (-1) = Except.ok []) ∧
      ((-1 : Int) < 0 →
        ∃ srt : List (ℚ × String),
          srt.Pairwise (fun x y => x.1 ≤ y.1) ∧
          (∀ v : ℚ, srt.filter (fun x => decide (x.1 = v)) =
            ([((0 : ℚ), "A"), (0, "B")]).filter (fun x => decide (x.1 = v))) ∧
          get_approximate_nearest_neighbors mOneHp idxTwoInBucket [0] (-1) =
            Except.ok (srt.take
              (([((0 : ℚ), "A"), (0, "B")]).length - (-(-1 : Int)).toNat)))) :=
  ⟨by with_unfolding_all rfl,
    knn_nonpositive_k mOneHp idxTwoInBucket [0] [(0, "A"), (0, "B")]
      (by with_unfolding_all rfl) (-1)⟩

/-- C8 counterexample: with two candidates in the query's bucket,
`knn(q, -1)` is not the empty list (it keeps the nearer candidate),
refuting "for every k ≤ 0, knn returns []". -/
theorem knn_negative_k_not_empty :
    get_approximate_nearest_neighbors mOneHp idxTwoInBucket [0] (-1) ≠ Except.ok [] := by
  with_unfolding_all decide

/-! ## C5: ranking of the returned candidates -/

/-- C5. When the query's bucket exists (the candidate pass returns `cs`)
and `k ≥ 0`, the query returns the candidate `(distance, raw)` pairs
sorted by ascending distance, ties kept in the order the candidates were
yielded (the sort `srt` preserves every equal-distance class of `cs`),
truncated to the first `min(k, |cs|)` pairs. -/
theorem knn_sorted_stable_truncated (m : BRPModel) (idx : Index) (q : Vec)
    (cs : List (ℚ × String)) (hc : candidate_distances m idx q = Except.ok cs)
    (k : Int) (hk : 0 ≤ k) :
    ∃ out, get_approximate_nearest_neighbors m idx q k = Except.ok out ∧
      out.Pairwise (fun x y => x.1 ≤ y.1) ∧
      ∃ srt : List (ℚ × String), srt.Pairwise (fun x y => x.1 ≤ y.1) ∧
        (∀ v : ℚ, srt.filter (fun x => decide (x.1 = v)) =
          cs.filter (fun x => decide (x.1 = v))) ∧
        out = srt.take (min k.toNat cs.length) := by
  have hknn : get_approximate_nearest_neighbors m idx q k =
      Except.ok (py_slice_upto k (py_sorted distLE cs)) := by
    unfold get_approximate_nearest_neighbors
    rw [hc, except_ok_bind]
  refine ⟨_, hknn, ?_, py_sorted distLE cs, pairwise_py_sorted cs,
    fun v => filter_py_sorted v cs, ?_⟩
  · rw [py_slice_upto, if_pos hk]
    exact List.Pairwise.sublist (List.take_sublist _ _) (pairwise_py_sorted cs)
  · rw [py_slice_upto, if_pos hk, ← length_py_sorted distLE cs, ← take_eq_take_min]

/-- C5 witness: two equidistant candidates, `k = 1`: the hypotheses hold
and the ranking statement is instantiated at them. -/
theorem knn_sorted_stable_truncated_witness :
    candidate_distances mOneHp idxTwoInBucket [0] = Except.ok [(0, "A"), (0, "B")] ∧
    (0 : Int) ≤ 1 ∧
    (∃ out, get_approximate_nearest_neighbors mOneHp idxTwoInBucket [0] 1 = Except.ok out ∧
      out.Pairwise (fun x y => x.1 ≤ y.1) ∧
      ∃ srt : List (ℚ × String), srt.Pairwise (fun x y => x.1 ≤ y.1) ∧
        (∀ v : ℚ, srt.filter (fun x => decide (x.1 = v)) =
          ([((0 : ℚ), "A"), (0, "B")]).filter (fun x => decide (x.1 = v))) ∧
        out = srt.take (min (1 : Int).toNat ([((0 : ℚ), "A"), (0, "B")]).length)) :=
  ⟨by with_unfolding_all rfl, by decide,
    knn_sorted_stable_truncated mOneHp idxTwoInBucket [0] [(0, "A"), (0, "B")]
      (by with_unfolding_all rfl) 1 (by decide)⟩

/-! ## C6: hyperplane count after a build -/

/-- Persisting the sampled hyperplanes appends one model per vector to
the in-memory list and one row per vector to the table. -/
theorem append_hyperplanes_spec (ws : List Vec) :
    ∀ (hps : List Hyperplane) (idx : Index),
      (append_hyperplanes ws hps idx).1 =
        hps ++ ws.map (fun w => { id := none, vector := w }) ∧
      (append_hyperplanes ws hps idx).2.hyperplane.length =
        idx.hyperplane.length + ws.length := by
  induction ws with
  | nil => intro hps idx; simp [append_hyperplanes]
  | cons w ws ih =>
    intro hps idx
    have hstep : append_hyperplanes (w :: ws) hps idx =
        append_hyperplanes ws (hps ++ [{ id := none, vector := w }])
          { idx with
              hyperplane :=
                idx.hyperplane ++
                  [{ id := freshId (idx.hyperplane.map (fun r => r.id)), vector := w }] } := rfl
    rw [hstep]
    obtain ⟨h1, h2⟩ := ih (hps ++ [{ id := none, vector := w }])
      { idx with
          hyperplane :=
            idx.hyperplane ++
              [{ id := freshId (idx.hyperplane.map (fun r => r.id)), vector := w }] }
    constructor
    · rw [h1]
      simp
    · rw [h2]
      show (idx.hyperplane ++
          [({ id := freshId (idx.hyperplane.map (fun r => r.id)), vector := w } :
            HyperplaneRow)]).length +
          ws.length = idx.hyperplane.length + (w :: ws).length
      simp only [List.length_append, List.length_cons, List.length_nil]
      omega

/-- A successful hash-set pass produces one hash per hyperplane. -/
theorem compute_hash_list_length (r : ℚ) (v : Vec) :
    ∀ (hps : List Hyperplane) (l : List Int),
      compute_hash_list hps r v = Except.ok l → l.length = hps.length := by
  intro hps
  induction hps with
  | nil =>
    intro l h
    unfold compute_hash_list at h
    simp only [Except.ok.injEq] at h
    rw [← h]
    rfl
  | cons hp rest ih =>
    intro l h
    unfold compute_hash_list at h
    cases hh : _compute_hash v hp.vector r with
    | error e => rw [hh, except_error_bind] at h; simp at h
    | ok a =>
      rw [hh, except_ok_bind] at h
      cases hrest : compute_hash_list rest r v with
      | error e => rw [hrest, except_error_bind] at h; simp at h
      | ok tl =>
        rw [hrest, except_ok_bind] at h
        simp only [Except.ok.injEq] at h
        rw [← h]
        simp [ih tl hrest]

/-- Bucket creation never touches the hyperplane table. -/
theorem create_bucket_hyperplane_frame (idx : Index) (b : Bucket) :
    (_create_bucket idx b).2.hyperplane = idx.hyperplane := by
  unfold _create_bucket
  cases hf : fetch_bucket idx b.hash <;> rfl

/-- A successful flatten needs a non-empty hashset (`u[-1]` would raise
`IndexError` otherwise). -/
theorem flatten_ok_ne_nil {u : List Int} {key : Int}
    (h : _flatten_hashset u = Except.ok key) : u ≠ [] := by
  intro hnil
  subst hnil
  simp [_flatten_hashset] at h

/-- Once hyperplanes are loaded, a build-loop iteration keeps both the
in-memory hyperplane list and the hyperplane table unchanged. -/
theorem generate_buckets_step_preserves (sample : Nat → Nat → Vec) (num : Nat) (r : ℚ)
    (acc acc' : List Hyperplane × Index) (d : Data)
    (hne : acc.1 ≠ [])
    (h : generate_buckets_step sample num r acc d = Except.ok acc') :
    acc'.1 = acc.1 ∧ acc'.2.hyperplane = acc.2.hyperplane := by
  have hemp : acc.1.isEmpty = false := List.isEmpty_eq_false.mpr hne
  simp only [generate_buckets_step, hemp, Bool.false_eq_true, if_false] at h
  cases hh : compute_hash_list acc.1 r d.embedding with
  | error e => rw [hh, except_error_bind] at h; simp at h
  | ok hset =>
    rw [hh, except_ok_bind] at h
    cases hfl : _flatten_hashset hset with
    | error e => rw [hfl, except_error_bind] at h; simp at h
    | ok key =>
      rw [hfl, except_ok_bind] at h
      simp only [Except.ok.injEq] at h
      rw [← h]
      exact ⟨rfl, create_bucket_hyperplane_frame acc.2 { id := none, hash := key }⟩

/-- The first build-loop iteration, starting with no hyperplanes loaded
and an empty hyperplane table, ends — when it succeeds — with a
non-empty in-memory list and exactly `num` stored hyperplanes. -/
theorem generate_buckets_step_first (sample : Nat → Nat → Vec) (num : Nat) (r : ℚ)
    (idx1 : Index) (d : Data) (acc' : List Hyperplane × Index)
    (hempty : idx1.hyperplane = [])
    (h : generate_buckets_step sample num r ([], idx1) d = Except.ok acc') :
    acc'.1 ≠ [] ∧ acc'.2.hyperplane.length = num := by
  simp only [generate_buckets_step, List.isEmpty_nil, if_true] at h
  obtain ⟨hs1, hs2⟩ := append_hyperplanes_spec
    (_gen_random_hyperplanes sample num d.embedding.length) [] idx1
  cases hh : compute_hash_list
      (append_hyperplanes (_gen_random_hyperplanes sample num d.embedding.length) [] idx1).1
      r d.embedding with
  | error e => rw [hh, except_error_bind] at h; simp at h
  | ok hset =>
    rw [hh, except_ok_bind] at h
    cases hfl : _flatten_hashset hset with
    | error e => rw [hfl, except_error_bind] at h; simp at h
    | ok key =>
      rw [hfl, except_ok_bind] at h
      simp only [Except.ok.injEq] at h
      have hsetlen : hset.length = num := by
        rw [compute_hash_list_length r d.embedding _ hset hh, hs1]
        simp [_gen_random_hyperplanes]
      have hnum : num ≠ 0 := by
        intro h0
        apply flatten_ok_ne_nil hfl
        rw [← List.length_eq_zero, hsetlen, h0]
      rw [← h]
      constructor
      · rw [hs1]
        simp only [List.nil_append, ne_eq, List.map_eq_nil_iff]
        intro hws
        apply hnum
        have := congrArg List.length hws
        simpa [_gen_random_hyperplanes] using this
      · rw [show (((append_hyperplanes (_gen_random_hyperplanes sample num d.embedding.length)
            [] idx1).1,
            (_update_data (_create_bucket (append_hyperplanes
              (_gen_random_hyperplanes sample num d.embedding.length) [] idx1).2
              { id := none, hash := key }).2 _).2) :
            List Hyperplane × Index).2.hyperplane =
          (_create_bucket (append_hyperplanes
            (_gen_random_hyperplanes sample num d.embedding.length) [] idx1).2
            { id := none, hash := key }).2.hyperplane from rfl]
        rw [create_bucket_hyperplane_frame]
        rw [hs2, hempty]
        simp [_gen_random_hyperplanes]

/-- Build-loop invariant: once the first iteration has installed the
hyperplanes, every later iteration preserves the stored count. -/
theorem build_loop_invariant (sample : Nat → Nat → Vec) (num : Nat) (r : ℚ) (n : Nat) :
    ∀ (ds : List Data) (acc res : List Hyperplane × Index),
      acc.1 ≠ [] → acc.2.hyperplane.length = n →
      List.foldlM (generate_buckets_step sample num r) acc ds = Except.ok res →
      res.1 ≠ [] ∧ res.2.hyperplane.length = n := by
  intro ds
  induction ds with
  | nil =>
    intro acc res h1 h2 h3
    simp only [List.foldlM_nil] at h3
    have h4 : Except.ok acc = Except.ok res := h3
    obtain rfl := Except.ok.inj h4
    exact ⟨h1, h2⟩
  | cons d ds ih =>
    intro acc res h1 h2 h3
    rw [List.foldlM_cons] at h3
    cases hstep : generate_buckets_step sample num r acc d with
    | error e => rw [hstep, except_error_bind] at h3; simp at h3
    | ok acc1 =>
      rw [hstep, except_ok_bind] at h3
      obtain ⟨ha, hb⟩ := generate_buckets_step_preserves sample num r acc acc1 d h1 hstep
      refine ih acc1 res ?_ ?_ h3
      · rw [ha]; exact h1
      · rw [hb]; exact h2

/-- C6 (amended). A build from a fresh model (no hyperplanes loaded)
stores exactly `num_hyperplanes` hyperplanes when the dataset is
non-empty; over an empty dataset the per-datum loop never runs, so no
hyperplanes are created at all. -/
theorem generate_buckets_hyperplane_count (sample : Nat → Nat → Vec)
    (m m' : BRPModel) (idx idx' : Index)
    (h0 : m.hyperplanes = [])
    (hok : generate_buckets sample m idx = Except.ok (m', idx')) :
    idx'.hyperplane.length = if idx.data.isEmpty then 0 else m.num_hyperplanes := by
  simp only [generate_buckets] at hok
  cases hd : idx.data with
  | nil =>
    have hfa : fetch_all_data (clean_step idx) = [] := by
      show List.map _ (clean_step idx).data = []
      rw [show (clean_step idx).data = idx.data from rfl, hd]
      rfl
    rw [hfa, List.foldlM_nil] at hok
    have hok2 : (Except.ok ({ m with hyperplanes := m.hyperplanes }, clean_step idx) :
        Except PyErr (BRPModel × Index)) = Except.ok (m', idx') := hok
    simp only [Except.ok.injEq, Prod.mk.injEq] at hok2
    rw [← hok2.2]
    rfl
  | cons r rs =>
    have hfa0 : fetch_all_data (clean_step idx) =
        ({ id := some r.id, raw := r.raw, embedding := r.embedding,
           bucket :=
             match r.bucket_id with
             | none => none
             | some bid => fetch_bucket (clean_step idx) (Int.ofNat bid) } : Data) ::
          rs.map (fun row =>
            ({ id := some row.id, raw := row.raw, embedding := row.embedding,
               bucket :=
                 match row.bucket_id with
                 | none => none
                 | some bid => fetch_bucket (clean_step idx) (Int.ofNat bid) } : Data)) := by
      show List.map _ (clean_step idx).data = _
      rw [show (clean_step idx).data = idx.data from rfl, hd, List.map_cons]
    obtain ⟨d, ds, hfa⟩ : ∃ d ds, fetch_all_data (clean_step idx) = d :: ds := ⟨_, _, hfa0⟩
    rw [hfa, List.foldlM_cons, h0] at hok
    cases hstep : generate_buckets_step sample m.num_hyperplanes m.bucket_size
        ([], clean_step idx) d with
    | error e => rw [hstep, except_error_bind, except_error_bind] at hok; simp at hok
    | ok acc1 =>
      rw [hstep, except_ok_bind] at hok
      obtain ⟨h1, h2⟩ := generate_buckets_step_first sample m.num_hyperplanes m.bucket_size
        (clean_step idx) d acc1 rfl hstep
      cases hfold : List.foldlM (generate_buckets_step sample m.num_hyperplanes m.bucket_size)
          acc1 ds with
      | error e => rw [hfold, except_error_bind] at hok; simp at hok
      | ok folded =>
        rw [hfold, except_ok_bind] at hok
        obtain ⟨_, hlen⟩ := build_loop_invariant sample m.num_hyperplanes m.bucket_size
          m.num_hyperplanes ds acc1 folded h1 h2 hfold
        simp only [Except.ok.injEq, Prod.mk.injEq] at hok
        rw [← hok.2, hlen]
        rfl

/-- C6 witness: building over a one-item dataset with `num_hyperplanes = 1`
stores exactly one hyperplane.  The concrete build result is computed in
full. -/
theorem generate_buckets_hyperplane_count_witness :
    mFresh.hyperplanes = [] ∧
    generate_buckets sampleOne mFresh idxOneData =
      Except.ok ({ mFresh with hyperplanes := [{ id := none, vector := [1] }] },
        { hyperplane := [{ id := 1, vector := [1] }],
          bucket := [{ id := 1, hash := 0 }],
          data := [{ id := 1, raw := "A", embedding := [0], bucket_id := some 1 }] }) ∧
    ({ hyperplane := [{ id := 1, vector := [1] }],
       bucket := [{ id := 1, hash := 0 }],
       data := [{ id := 1, raw := "A", embedding := [0], bucket_id := some 1 }] } :
        Index).hyperplane.length =
      if idxOneData.data.isEmpty then 0 else mFresh.num_hyperplanes :=
  ⟨rfl, by with_unfolding_all rfl,
    generate_buckets_hyperplane_count sampleOne mFresh _ idxOneData _ rfl
      (by with_unfolding_all rfl)⟩

/-- C6 counterexample: building over an empty dataset stores no
hyperplanes even though `num_hyperplanes = 1`, refuting "the number of
stored hyperplanes equals the configured num_hyperplanes including the
case of an empty dataset". -/
theorem generate_buckets_empty_dataset_no_hyperplanes :
    (generate_buckets sampleOne mFresh idxEmpty).map (fun p => p.2.hyperplane.length) ≠
      Except.ok mFresh.num_hyperplanes := by
  with_unfolding_all decide

end BRP
